import Mathlib

/-
  Verification development for the news-vs-stock analyzer (src/news.py).

  The Python source is shallowly embedded: Python `str` is modelled as a
  list of Unicode code points (`Str := List Char`); external effects
  (the news-search provider, the HTTP fetch, the boilerplate extractor,
  the remote completion endpoint) are passed in as explicit parameters so
  that the pure control flow of the source is what the definitions capture.
  Exceptions raised by an external call are modelled with `Except`; the
  source's `try/except` blocks become the corresponding `Except.error`
  branches of the embedding.
-/

set_option maxRecDepth 8000

namespace NewsApp

/-- Python `str`, modelled as the list of its Unicode code points. -/
abbrev Str := List Char

/-- Python `str.strip()`: remove whitespace from both ends. -/
def pyStrip (s : Str) : Str :=
  ((s.dropWhile Char.isWhitespace).reverse.dropWhile Char.isWhitespace).reverse

/-- Python `str.lower()`, as applied to DNS host names. -/
def pyLower (s : Str) : Str := s.map Char.toLower

/-- Does `hay` start with `pat`? (helper for Python substring membership). -/
def strStartsWith : Str → Str → Bool
  | _, [] => true
  | [], _ :: _ => false
  | h :: hs, p :: ps => h == p && strStartsWith hs ps

/-- Python substring membership `pat in hay` (contiguous substring). -/
def pyIn (pat : Str) : Str → Bool
  | [] => pat.isEmpty
  | c :: t => strStartsWith (c :: t) pat || pyIn pat t

/-- A parsed URL as `urllib.parse.urlparse` exposes it: the `netloc`
(host) component together with the components `is_blocked_domain` never
inspects. The parsing itself is done by the external `urllib` library, so
the embedding works on the parsed form. -/
structure Url where
  host : Str
  path : Str
  query : Str
  fragment : Str
  deriving DecidableEq

/-- The fixed deny-list `BLOCKED_DOMAINS` of src/news.py (lines 24-30). -/
def BLOCKED_DOMAINS : List Str :=
  ["globeandmail.com".data, "seekingalpha.com".data, "benzinga.com".data,
   "wsj.com".data, "ft.com".data]

/-- `is_blocked_domain` (src/news.py lines 41-43): lowercase the URL's
host and test whether any deny-list entry is a substring of it. -/
def is_blocked_domain (url : Url) : Bool :=
  BLOCKED_DOMAINS.any (fun bad => pyIn bad (pyLower url.host))

/-- The body of `search_news`'s result loop (src/news.py lines 33-39):
each provider record contributes its optional `url` field; a URL is
appended when it is truthy (non-empty) and not already collected. -/
def searchLoop : List (Option Str) → List Str → List Str
  | [], links => links
  | r :: rs, links =>
    match r with
    | none => searchLoop rs links
    | some url =>
      if url ≠ [] ∧ url ∉ links then searchLoop rs (links ++ [url])
      else searchLoop rs links

/-- `search_news` (src/news.py lines 32-39). The provider iteration
`ddgs.news(query, ...)` is external: it either yields a list of records
(each with an optional `url` field) or raises. The function body has no
`try/except`, so a provider error propagates unchanged. -/
def search_news (provider : Except Unit (List (Option Str))) :
    Except Unit (List Str) :=
  match provider with
  | Except.error e => Except.error e
  | Except.ok results => Except.ok (searchLoop results [])

/-- The sequence of truthy URLs a provider result list carries, in
provider order (records with a missing or empty `url` contribute
nothing). -/
def validUrls : List (Option Str) → List Str
  | [] => []
  | none :: rs => validUrls rs
  | some url :: rs => if url = [] then validUrls rs else url :: validUrls rs

/-- The spec's words for deduplication: keep each distinct URL once, in
order of first appearance. (Spec-side definition, used to state the
refinement of `searchLoop`.) -/
def firstAppearanceDedup : List Str → List Str
  | [] => []
  | u :: us => u :: firstAppearanceDedup (us.filter (fun v => v != u))
termination_by l => l.length
decreasing_by
  simp only [List.length_cons]
  exact Nat.lt_succ_of_le (List.length_filter_le _ _)

/-- `crawl_article` (src/news.py lines 45-66). External effects are
parameters: `fetch` is the outcome of `requests.get` on this URL
(`Except.error` = transport exception, otherwise status code and body
text), `extractor` is `trafilatura.extract` on a body. The second
component of the result counts how many HTTP requests were issued,
making the fetch effect observable. All failure branches, including the
caught exceptions, return `none`. -/
def crawl_article (url : Url) (fetch : Except Unit (Nat × Str))
    (extractor : Str → Option Str) : Option Str × Nat :=
  if is_blocked_domain url then (none, 0)
  else
    match fetch with
    | Except.error _ => (none, 1)
    | Except.ok (status_code, body) =>
      if status_code ≠ 200 ∨ body.length < 2000 then (none, 1)
      else
        match extractor body with
        | none => (none, 1)
        | some text =>
          if text ≠ [] ∧ 300 < (pyStrip text).length then (some (pyStrip text), 1)
          else (none, 1)

/-- The acquisition loop of the Analyze handler (src/news.py lines
398-415), parametric in the per-link extraction call and the target
count: state is the list of successful article texts and the count of
attempted links; the loop breaks (without counting an attempt) as soon
as the successes reach the target. -/
def acquireLoop {α β : Type} (extract : α → Option β) (target_count : Nat) :
    List α → List β → Nat → List β × Nat
  | [], successes, attempted => (successes, attempted)
  | link :: rest, successes, attempted =>
    if target_count ≤ successes.length then (successes, attempted)
    else
      match extract link with
      | some text => acquireLoop extract target_count rest (successes ++ [text]) (attempted + 1)
      | none => acquireLoop extract target_count rest successes (attempted + 1)

/-- The acquisition pipeline: run the loop from the empty state. -/
def acquire {α β : Type} (extract : α → Option β) (links : List α)
    (target_count : Nat) : List β × Nat :=
  acquireLoop extract target_count links [] 0

/-- The Analyze handler's instantiation of the loop: the source hardcodes
a target count of 5 successful articles. -/
def analyze_acquire {α β : Type} (crawl : α → Option β) (links : List α) :
    List β × Nat :=
  acquire crawl links 5

/-- A URL on a host no deny-list entry matches (concrete test value). -/
def exampleUrl : Url := Url.mk ("example.com").data [] [] []

/-- A URL whose host matches the deny-list entry for wsj.com (concrete
test value). -/
def wsjUrl : Url := Url.mk ("www.wsj.com").data ("/articles/x").data [] []

/-- One chat message, as the completion payload carries it. -/
structure Msg where
  role : Str
  content : Str
  deriving DecidableEq

/-- Python list slicing `l[-n:]`: the last `n` elements. -/
def takeLast {α : Type} (n : Nat) (l : List α) : List α :=
  l.drop (l.length - n)

/-- `eval_context` of `chat_with_groq` (src/news.py line 129):
`(evaluation_text or "")[:2500]`. -/
def eval_context (evaluation_text : Option Str) : Str :=
  (evaluation_text.getD []).take 2500

def roleSystem : Str := "system".data

def roleUser : Str := "user".data

def chatSeg1 : Str :=
  ("\nYou are a stock research assistant inside a Streamlit app.\n\nUse the provided evaluation context as your primary reference.\nDiscuss plausible bullish/bearish scenarios and what would need to happen for price to rise/fall.\nDo not claim certainty or guarantee future price movements.\nIf asked \"will it go up\", respond with a scenario-based answer and key risks.\n\nStock: ").data

def chatSeg2 : Str := ("\nCurrent Price: ").data

def chatSeg3 : Str := ("\n\nEvaluation Context:\n").data

def chatSeg4 : Str :=
  ("\n\nAnswer format rules:\n- Be concise.\n- Plain text.\n- If you reference up/down, clarify it is a hypothesis, not a guarantee.\n").data

/-- The system prompt `chat_with_groq` builds (src/news.py lines
131-149): the f-string template with ticker, price and the truncated
evaluation context interpolated. -/
def chat_system_prompt (ticker price : Str) (evaluation_text : Option Str) : Str :=
  chatSeg1 ++ ticker ++ chatSeg2 ++ price ++ chatSeg3 ++
    eval_context evaluation_text ++ chatSeg4

/-- The message list `chat_with_groq` forwards to the completion call
(src/news.py lines 151-154): the system prompt, then — when the history
is non-empty — its last 20 turns, then the new user message. -/
def chat_messages (system_prompt : Str) (chat_history : List Msg)
    (user_message : Str) : List Msg :=
  (Msg.mk roleSystem system_prompt ::
    (if chat_history = [] then [] else takeLast 20 chat_history)) ++
    [Msg.mk roleUser user_message]

/-- The full request message list of `chat_with_groq` as a function of
its inputs (the remote POST itself is external). -/
def chat_with_groq_messages (ticker price : Str) (evaluation_text : Option Str)
    (chat_history : List Msg) (user_message : Str) : List Msg :=
  chat_messages (chat_system_prompt ticker price evaluation_text)
    chat_history user_message

def anaSeg1 : Str := ("\nYou are a financial analyst.\n\nStock: ").data

def anaSeg2 : Str := ("\nCurrent Price: ").data

def anaSeg3 : Str := ("\n\nNews Articles:\n").data

def anaSeg4 : Str :=
  ("\n\nTasks:\n1. Sentiment (Positive / Negative / Neutral)\n2. Does news justify the price?\n3. Actionable insight (max 3 lines)\n\nRespond in plain text.\n").data

/-- The prompt `analyze_with_groq` builds (src/news.py lines 79-94): the
f-string template with the news text truncated to its first 3500 code
points. -/
def analyze_prompt (news_text : Str) (price ticker : Str) : Str :=
  anaSeg1 ++ ticker ++ anaSeg2 ++ price ++ anaSeg3 ++
    news_text.take 3500 ++ anaSeg4

/-- The request message list of `analyze_with_groq` (src/news.py lines
100-104): a single user message holding the prompt. -/
def analyze_messages (news_text price ticker : Str) : List Msg :=
  [Msg.mk roleUser (analyze_prompt news_text price ticker)]

/-! ## Lemmas about the acquisition loop -/

theorem acquireLoop_length_le {α β : Type} (extract : α → Option β) (k : Nat) :
    ∀ (ls : List α) (succ : List β) (att : Nat), succ.length ≤ k →
      (acquireLoop extract k ls succ att).1.length ≤ k := by
  intro ls
  induction ls with
  | nil => intro succ att h; simpa [acquireLoop] using h
  | cons link rest ih =>
    intro succ att h
    simp only [acquireLoop]
    by_cases hk : k ≤ succ.length
    · rw [if_pos hk]; exact h
    · rw [if_neg hk]
      cases hx : extract link with
      | none => simp only [hx]; exact ih succ (att + 1) h
      | some text =>
        simp only [hx]
        apply ih
        have hlt : succ.length < k := Nat.lt_of_not_le hk
        simp only [List.length_append, List.length_cons, List.length_nil]
        omega

theorem acquireLoop_attempted_le {α β : Type} (extract : α → Option β) (k : Nat) :
    ∀ (ls : List α) (succ : List β) (att : Nat),
      (acquireLoop extract k ls succ att).2 ≤ att + ls.length := by
  intro ls
  induction ls with
  | nil => intro succ att; simp [acquireLoop]
  | cons link rest ih =>
    intro succ att
    simp only [acquireLoop, List.length_cons]
    by_cases hk : k ≤ succ.length
    · rw [if_pos hk]; simp
    · rw [if_neg hk]
      cases hx : extract link with
      | none =>
        simp only [hx]
        have h1 := ih succ (att + 1)
        omega
      | some text =>
        simp only [hx]
        have h1 := ih (succ ++ [text]) (att + 1)
        omega

theorem acquireLoop_early_stop {α β : Type} (extract : α → Option β) (k : Nat) :
    ∀ (ls : List α) (succ : List β) (att : Nat), succ.length ≤ k →
      (acquireLoop extract k ls succ att).2 < att + ls.length →
      (acquireLoop extract k ls succ att).1.length = k := by
  intro ls
  induction ls with
  | nil => intro succ att h hlt; simp [acquireLoop] at hlt
  | cons link rest ih =>
    intro succ att h hlt
    simp only [acquireLoop, List.length_cons] at hlt ⊢
    by_cases hk : k ≤ succ.length
    · rw [if_pos hk]
      simp only []
      omega
    · rw [if_neg hk] at hlt ⊢
      cases hx : extract link with
      | none =>
        simp only [hx] at hlt ⊢
        exact ih succ (att + 1) h (by omega)
      | some text =>
        simp only [hx] at hlt ⊢
        apply ih (succ ++ [text]) (att + 1)
        · have hlt2 : succ.length < k := Nat.lt_of_not_le hk
          simp only [List.length_append, List.length_cons, List.length_nil]
          omega
        · omega

theorem acquireLoop_all_fail {α β : Type} (extract : α → Option β) (k : Nat)
    (hk : 0 < k) :
    ∀ (ls : List α) (att : Nat), (∀ l ∈ ls, extract l = none) →
      acquireLoop extract k ls ([] : List β) att = ([], att + ls.length) := by
  intro ls
  induction ls with
  | nil => intro att h; simp [acquireLoop]
  | cons link rest ih =>
    intro att h
    have hnil : ¬ k ≤ ([] : List β).length := by simp; omega
    simp only [acquireLoop]
    rw [if_neg hnil]
    rw [h link (by simp)]
    rw [ih (att + 1) (fun l hl => h l (by simp [hl]))]
    simp only [List.length_cons, Prod.mk.injEq]
    exact ⟨trivial, by omega⟩

/-! ## Claims C1 and C4: bounded yield and exhaustion -/

/-- Claim C1: for every link list and target count k, the acquisition
loop returns at most k successfully extracted articles, attempts at most
as many links as the list holds, and whenever attempted is strictly less
than the length of the link list, exactly k articles were collected (the
loop stopped early on success, not on attempts). -/
theorem claim_C1_bounded_yield {α β : Type} (extract : α → Option β)
    (links : List α) (k : Nat) :
    (acquire extract links k).1.length ≤ k ∧
    (acquire extract links k).2 ≤ links.length ∧
    ((acquire extract links k).2 < links.length →
      (acquire extract links k).1.length = k) := by
  refine ⟨?_, ?_, ?_⟩
  · exact acquireLoop_length_le extract k links [] 0 (by simp)
  · have h := acquireLoop_attempted_le extract k links [] 0
    simpa using h
  · intro hlt
    exact acquireLoop_early_stop extract k links [] 0 (by simp) (by simpa using hlt)

/-- Witness for C1: two always-successful links with target count 1 stop
early after one attempt with exactly one article. -/
theorem claim_C1_witness :
    (acquire (fun l : Str => some l) [['a'], ['b']] 1).2 < 2 ∧
    (acquire (fun l : Str => some l) [['a'], ['b']] 1).1.length = 1 :=
  ⟨by decide,
   (claim_C1_bounded_yield (fun l : Str => some l) [['a'], ['b']] 1).2.2 (by decide)⟩

/-- Claim C4: if every extraction over a link list fails, the Analyze
handler's acquisition loop (target count 5) returns zero articles and the
attempted count equals the length of the link list — the full list is
scanned with no early stop. -/
theorem claim_C4_exhaustion {α β : Type} (crawl : α → Option β) (links : List α)
    (h : ∀ l ∈ links, crawl l = none) :
    analyze_acquire crawl links = (([] : List β), links.length) := by
  have := acquireLoop_all_fail crawl 5 (by omega) links 0 h
  simpa [analyze_acquire, acquire] using this

/-- Witness for C4: two links whose extraction always fails yield no
articles and two attempts. -/
theorem claim_C4_witness :
    analyze_acquire (fun _ : Str => (none : Option Str)) [['a'], ['b']] = ([], 2) :=
  claim_C4_exhaustion (fun _ : Str => (none : Option Str)) [['a'], ['b']]
    (by intro l _; rfl)

/-! ## Claims C5, C6, C7, C3: domain filter and article extractor -/

/-- Claim C5: for every URL whose host matches a deny-list entry, the
extractor returns failure immediately and the fetch effect is never
invoked (zero HTTP requests are issued), whatever the fetch would have
returned and whatever the boilerplate extractor would do. -/
theorem claim_C5_blocked_short_circuit (url : Url) (fetch : Except Unit (Nat × Str))
    (extractor : Str → Option Str) (h : is_blocked_domain url = true) :
    crawl_article url fetch extractor = (none, 0) := by
  simp [crawl_article, h]

/-- Witness for C5: a wsj.com URL is blocked, and even with a successful
fetch of an extractable page available the result is failure with zero
requests issued. -/
theorem claim_C5_witness :
    is_blocked_domain wsjUrl = true ∧
    crawl_article wsjUrl (Except.ok (200, List.replicate 2000 'x'))
      (fun _ => some (List.replicate 301 'a')) = (none, 0) :=
  ⟨by decide,
   claim_C5_blocked_short_circuit wsjUrl (Except.ok (200, List.replicate 2000 'x'))
     (fun _ => some (List.replicate 301 'a')) (by decide)⟩

/-- Claim C7: the domain filter is deterministic (it is a pure function
of the parsed URL), case-insensitive, and depends only on the URL's
host: any two URLs whose hosts agree up to letter case — in particular
two URLs with literally the same host and arbitrary paths, queries and
fragments — get the identical answer. -/
theorem claim_C7_filter_host_only :
    (∀ u v : Url, pyLower u.host = pyLower v.host →
      is_blocked_domain u = is_blocked_domain v) ∧
    (∀ h p1 q1 f1 p2 q2 f2 : Str,
      is_blocked_domain (Url.mk h p1 q1 f1) = is_blocked_domain (Url.mk h p2 q2 f2)) := by
  constructor
  · intro u v h
    simp only [is_blocked_domain, h]
  · intro h p1 q1 f1 p2 q2 f2
    rfl

/-- Witness for C7: a mixed-case wsj host with one path agrees with the
lower-case host with a different path and query. -/
theorem claim_C7_witness :
    pyLower ("WSJ.com").data = pyLower ("wsj.com").data ∧
    is_blocked_domain (Url.mk ("WSJ.com").data ("/a").data [] []) =
      is_blocked_domain (Url.mk ("wsj.com").data ("/b").data ("q=1").data []) :=
  ⟨by decide,
   claim_C7_filter_host_only.1 (Url.mk ("WSJ.com").data ("/a").data [] [])
     (Url.mk ("wsj.com").data ("/b").data ("q=1").data []) (by decide)⟩

/-- Claim C6: article extraction failure is always a soft `none`: the
embedding is a total function into `Option`, and every failure outcome —
transport error, non-200 status, short body, empty or missing
extraction, too-short trimmed text — yields `none` rather than an
escaping exception. -/
theorem claim_C6_soft_failure (url : Url) (extractor : Str → Option Str) :
    (crawl_article url (Except.error ()) extractor).1 = none ∧
    (∀ (status_code : Nat) (body : Str), status_code ≠ 200 →
      (crawl_article url (Except.ok (status_code, body)) extractor).1 = none) ∧
    (∀ body : Str, body.length < 2000 →
      (crawl_article url (Except.ok (200, body)) extractor).1 = none) ∧
    (∀ body : Str, extractor body = none →
      (crawl_article url (Except.ok (200, body)) extractor).1 = none) ∧
    (∀ body : Str, extractor body = some [] →
      (crawl_article url (Except.ok (200, body)) extractor).1 = none) ∧
    (∀ body text : Str, extractor body = some text → (pyStrip text).length ≤ 300 →
      (crawl_article url (Except.ok (200, body)) extractor).1 = none) := by
  refine ⟨?_, ?_, ?_, ?_, ?_, ?_⟩
  · by_cases hb : is_blocked_domain url <;> simp [crawl_article, hb]
  · intro s body hs
    by_cases hb : is_blocked_domain url <;> simp [crawl_article, hb, hs]
  · intro body hlen
    by_cases hb : is_blocked_domain url <;> simp [crawl_article, hb, hlen]
  · intro body hext
    by_cases hb : is_blocked_domain url <;>
      by_cases hlen : body.length < 2000 <;>
        simp [crawl_article, hb, hlen, hext]
  · intro body hext
    by_cases hb : is_blocked_domain url <;>
      by_cases hlen : body.length < 2000 <;>
        simp [crawl_article, hb, hlen, hext]
  · intro body text hext h300
    have hnot : ¬ 300 < (pyStrip text).length := by omega
    by_cases hb : is_blocked_domain url <;>
      by_cases hlen : body.length < 2000 <;>
        simp [crawl_article, hb, hlen, hext, hnot]

/-- Witness for C6: each failure mode evaluated on a concrete unblocked
URL yields `none`. -/
theorem claim_C6_witness :
    (crawl_article exampleUrl (Except.error ()) (fun _ => none)).1 = none ∧
    (crawl_article exampleUrl (Except.ok (404, [])) (fun _ => none)).1 = none ∧
    (crawl_article exampleUrl (Except.ok (200, ['x'])) (fun _ => none)).1 = none ∧
    (crawl_article exampleUrl (Except.ok (200, List.replicate 2000 'x'))
      (fun _ => none)).1 = none ∧
    (crawl_article exampleUrl (Except.ok (200, List.replicate 2000 'x'))
      (fun _ => some [])).1 = none ∧
    (crawl_article exampleUrl (Except.ok (200, List.replicate 2000 'x'))
      (fun _ => some (List.replicate 300 'a'))).1 = none := by
  refine ⟨?_, ?_, ?_, ?_, ?_, ?_⟩
  · exact (claim_C6_soft_failure exampleUrl (fun _ => none)).1
  · exact (claim_C6_soft_failure exampleUrl (fun _ => none)).2.1 404 [] (by decide)
  · exact (claim_C6_soft_failure exampleUrl (fun _ => none)).2.2.1 ['x'] (by decide)
  · exact (claim_C6_soft_failure exampleUrl (fun _ => none)).2.2.2.1
      (List.replicate 2000 'x') rfl
  · exact (claim_C6_soft_failure exampleUrl (fun _ => some [])).2.2.2.2.1
      (List.replicate 2000 'x') rfl
  · exact (claim_C6_soft_failure exampleUrl
      (fun _ => some (List.replicate 300 'a'))).2.2.2.2.2
      (List.replicate 2000 'x') (List.replicate 300 'a') rfl (by decide)

/-- Claim C3: the extractor acceptance thresholds sit exactly at the
specified boundaries. For an unblocked URL and a status-200 response: a
body of exactly 1999 code points is rejected by the raw-size check; a
body of 2000 code points with extractable text is accepted; extracted
text whose trimmed length is exactly 300 is rejected, while trimmed
length 301 is accepted. -/
theorem claim_C3_threshold_boundaries (url : Url) (hu : is_blocked_domain url = false)
    (extractor : Str → Option Str) :
    (∀ body : Str, body.length = 1999 →
      crawl_article url (Except.ok (200, body)) extractor = (none, 1)) ∧
    (∀ body text : Str, body.length = 2000 → extractor body = some text →
      text ≠ [] → 300 < (pyStrip text).length →
      crawl_article url (Except.ok (200, body)) extractor = (some (pyStrip text), 1)) ∧
    (∀ body text : Str, 2000 ≤ body.length → extractor body = some text →
      (pyStrip text).length = 300 →
      crawl_article url (Except.ok (200, body)) extractor = (none, 1)) ∧
    (∀ body text : Str, 2000 ≤ body.length → extractor body = some text →
      text ≠ [] → (pyStrip text).length = 301 →
      crawl_article url (Except.ok (200, body)) extractor = (some (pyStrip text), 1)) := by
  refine ⟨?_, ?_, ?_, ?_⟩
  · intro body hlen
    have hshort : body.length < 2000 := by omega
    simp [crawl_article, hu, hshort]
  · intro body text hlen hext hne h301
    have hlong : ¬ body.length < 2000 := by omega
    simp [crawl_article, hu, hlong, hext, hne, h301]
  · intro body text hlen hext h300
    have hlong : ¬ body.length < 2000 := by omega
    have hnot : ¬ 300 < (pyStrip text).length := by omega
    simp [crawl_article, hu, hlong, hext, hnot]
  · intro body text hlen hext hne h301
    have hlong : ¬ body.length < 2000 := by omega
    have hgt : 300 < (pyStrip text).length := by omega
    simp [crawl_article, hu, hlong, hext, hne, hgt]

/-- Witness for C3: concrete bodies of length 1999 and 2000 and concrete
extracted texts of trimmed length 300 and 301 land exactly on the
boundaries. -/
theorem claim_C3_witness :
    crawl_article exampleUrl (Except.ok (200, List.replicate 1999 'x'))
      (fun _ => some (List.replicate 301 'a')) = (none, 1) ∧
    crawl_article exampleUrl (Except.ok (200, List.replicate 2000 'x'))
      (fun _ => some (List.replicate 301 'a')) =
      (some (pyStrip (List.replicate 301 'a')), 1) ∧
    crawl_article exampleUrl (Except.ok (200, List.replicate 2000 'x'))
      (fun _ => some (List.replicate 300 'a')) = (none, 1) ∧
    crawl_article exampleUrl (Except.ok (200, List.replicate 2500 'x'))
      (fun _ => some (List.replicate 301 'a')) =
      (some (pyStrip (List.replicate 301 'a')), 1) := by
  refine ⟨?_, ?_, ?_, ?_⟩
  · exact (claim_C3_threshold_boundaries exampleUrl (by decide)
      (fun _ => some (List.replicate 301 'a'))).1 (List.replicate 1999 'x')
      (by simp)
  · exact (claim_C3_threshold_boundaries exampleUrl (by decide)
      (fun _ => some (List.replicate 301 'a'))).2.1 (List.replicate 2000 'x')
      (List.replicate 301 'a') (by simp) rfl (by decide) (by decide)
  · exact (claim_C3_threshold_boundaries exampleUrl (by decide)
      (fun _ => some (List.replicate 300 'a'))).2.2.1 (List.replicate 2000 'x')
      (List.replicate 300 'a') (by simp) rfl (by decide)
  · exact (claim_C3_threshold_boundaries exampleUrl (by decide)
      (fun _ => some (List.replicate 301 'a'))).2.2.2 (List.replicate 2500 'x')
      (List.replicate 301 'a') (by simp) rfl (by decide) (by decide)

/-! ## Lemmas about link discovery -/

theorem filter_notMem_append (l acc : List Str) (u : Str) :
    (l.filter (fun v => decide (v ∉ acc))).filter (fun v => v != u) =
      l.filter (fun v => decide (v ∉ acc ++ [u])) := by
  rw [List.filter_filter]
  apply List.filter_congr
  intro v _
  by_cases h1 : v = u
  · subst h1
    simp [List.mem_append]
  · by_cases h2 : v ∈ acc <;> simp [h1, h2, List.mem_append]

theorem searchLoop_eq_dedup :
    ∀ (rs : List (Option Str)) (acc : List Str),
      searchLoop rs acc =
        acc ++ firstAppearanceDedup ((validUrls rs).filter (fun v => decide (v ∉ acc))) := by
  intro rs
  induction rs with
  | nil =>
    intro acc
    simp [searchLoop, validUrls, firstAppearanceDedup]
  | cons r rest ih =>
    intro acc
    cases r with
    | none =>
      simp only [searchLoop, validUrls]
      exact ih acc
    | some url =>
      by_cases hnil : url = []
      · subst hnil
        simp only [searchLoop, validUrls]
        rw [if_neg (by simp), if_pos trivial]
        exact ih acc
      · by_cases hmem : url ∈ acc
        · simp only [searchLoop, validUrls]
          rw [if_neg (by simp [hmem]), if_neg hnil]
          rw [List.filter_cons_of_neg (by simp [hmem])]
          exact ih acc
        · simp only [searchLoop, validUrls]
          rw [if_pos ⟨hnil, hmem⟩, if_neg hnil]
          rw [List.filter_cons_of_pos (by simp [hmem])]
          simp only [firstAppearanceDedup]
          rw [filter_notMem_append]
          rw [ih (acc ++ [url])]
          simp [List.append_assoc]

theorem searchLoop_nil (rs : List (Option Str)) :
    searchLoop rs [] = firstAppearanceDedup (validUrls rs) := by
  rw [searchLoop_eq_dedup rs []]
  have hfil : (validUrls rs).filter (fun v => decide (v ∉ ([] : List Str))) = validUrls rs :=
    List.filter_eq_self.mpr (by intro a _; simp)
  rw [hfil]
  simp

theorem searchLoop_nodup : ∀ (rs : List (Option Str)) (acc : List Str),
    acc.Nodup → (searchLoop rs acc).Nodup := by
  intro rs
  induction rs with
  | nil => intro acc h; simpa [searchLoop] using h
  | cons r rest ih =>
    intro acc h
    cases r with
    | none => simp only [searchLoop]; exact ih acc h
    | some url =>
      simp only [searchLoop]
      by_cases hc : url ≠ [] ∧ url ∉ acc
      · rw [if_pos hc]
        apply ih
        simp [List.nodup_append, h, hc.2]
      · rw [if_neg hc]; exact ih acc h

theorem searchLoop_mem : ∀ (rs : List (Option Str)) (acc : List Str) (v : Str),
    v ∈ searchLoop rs acc ↔ v ∈ acc ∨ v ∈ validUrls rs := by
  intro rs
  induction rs with
  | nil => intro acc v; simp [searchLoop, validUrls]
  | cons r rest ih =>
    intro acc v
    cases r with
    | none => simp only [searchLoop, validUrls]; exact ih acc v
    | some url =>
      by_cases hnil : url = []
      · subst hnil
        simp only [searchLoop, validUrls]
        rw [if_neg (by simp), if_pos trivial]
        exact ih acc v
      · by_cases hmem : url ∈ acc
        · simp only [searchLoop, validUrls]
          rw [if_neg (by simp [hmem]), if_neg hnil]
          rw [ih acc v]
          simp only [List.mem_cons]
          constructor
          · tauto
          · rintro (h | h | h)
            · exact Or.inl h
            · exact Or.inl (h ▸ hmem)
            · exact Or.inr h
        · simp only [searchLoop, validUrls]
          rw [if_pos ⟨hnil, hmem⟩, if_neg hnil]
          rw [ih (acc ++ [url]) v]
          simp [List.mem_append, or_assoc]

theorem count_one_of_nodup {a : Str} : ∀ {l : List Str}, l.Nodup → a ∈ l → l.count a = 1 := by
  intro l
  induction l with
  | nil => intro _ h; simp at h
  | cons b t ih =>
    intro hn hm
    rw [List.count_cons]
    rcases List.mem_cons.mp hm with h | h
    · subst h
      have hnot : a ∉ t := (List.nodup_cons.mp hn).1
      rw [List.count_eq_zero.mpr hnot]
      simp
    · have hne : a ≠ b := by rintro rfl; exact (List.nodup_cons.mp hn).1 h
      rw [ih (List.nodup_cons.mp hn).2 h]
      have hne2 : ¬ b = a := fun hseq => hne hseq.symm
      simp [hne2]

/-! ## Claims C8 and C2: link discovery -/

/-- Claim C8: on any provider result sequence (with repeats), the link
list `search_news` builds contains each distinct URL exactly once and
equals the first-appearance deduplication of the URLs in provider order:
the output is duplicate-free, has exactly the URLs the provider yielded,
counts each of them once, and keeps first-appearance order. -/
theorem claim_C8_dedup_order (rs : List (Option Str)) :
    search_news (Except.ok rs) = Except.ok (firstAppearanceDedup (validUrls rs)) ∧
    (searchLoop rs []).Nodup ∧
    (∀ u : Str, u ∈ searchLoop rs [] ↔ u ∈ validUrls rs) ∧
    (∀ u : Str, u ∈ validUrls rs → List.count u (searchLoop rs []) = 1) := by
  have hnodup := searchLoop_nodup rs [] List.nodup_nil
  have hmem := fun u => searchLoop_mem rs [] u
  refine ⟨?_, hnodup, ?_, ?_⟩
  · simp only [search_news]
    rw [searchLoop_nil]
  · intro u
    rw [hmem u]
    simp
  · intro u hu
    exact count_one_of_nodup hnodup ((hmem u).mpr (Or.inr hu))

/-- Witness for C8: a concrete result sequence with repeats, a missing
URL and an empty URL; the repeated URL appears exactly once in the
output. -/
theorem claim_C8_witness :
    (['b'] : Str) ∈ validUrls [some ['b'], some ['a'], none, some ['b'], some [], some ['a']] ∧
    List.count (['b'] : Str)
      (searchLoop [some ['b'], some ['a'], none, some ['b'], some [], some ['a']] []) = 1 :=
  ⟨by decide,
   (claim_C8_dedup_order [some ['b'], some ['a'], none, some ['b'], some [], some ['a']]).2.2.2
     ['b'] (by decide)⟩

/-- Counterexample to C2 as stated: `search_news` has no exception
handler, so when the provider raises, the error propagates past the
boundary instead of an ordinary list being returned — the result at this
concrete input is `Except.error ()`, which is not `Except.ok links` for
any list of links. -/
theorem claim_C2_counterexample :
    search_news (Except.error ()) = Except.error () := rfl

/-- Claim C2 as amended: when the provider yields a result list —
including the empty one — `search_news` returns an ordinary
(duplicate-free, possibly empty) list of URLs; but a provider exception
is not caught and propagates past the boundary unchanged. -/
theorem claim_C2_amended_no_raise :
    (∀ e : Unit, search_news (Except.error e) = Except.error e) ∧
    (∀ rs : List (Option Str), ∃ links : List Str,
      search_news (Except.ok rs) = Except.ok links ∧ links.Nodup) := by
  constructor
  · intro e; rfl
  · intro rs
    exact ⟨searchLoop rs [], rfl, searchLoop_nodup rs [] List.nodup_nil⟩

/-! ## Claims C9 and C10: request-size bounds of the completion calls -/

/-- Claim C9: whatever the transcript and evaluation text,
`chat_with_groq` forwards at most the last 20 prior transcript turns and
at most the first 2500 characters of the evaluation text to the remote
completion call: the full message list has at most 22 entries (system +
history + new user message), the forwarded history slice is a suffix of
the transcript of length at most 20, the evaluation context is a prefix
of the evaluation text of length at most 2500, and the request depends
on the evaluation text only through that prefix. -/
theorem claim_C9_context_bound (ticker price : Str) (evaluation_text : Option Str)
    (chat_history : List Msg) (user_message : Str) :
    (chat_with_groq_messages ticker price evaluation_text chat_history
      user_message).length ≤ 22 ∧
    (takeLast 20 chat_history).length ≤ 20 ∧
    (∃ dropped, dropped ++ takeLast 20 chat_history = chat_history) ∧
    (eval_context evaluation_text).length ≤ 2500 ∧
    (∃ rest, eval_context evaluation_text ++ rest = evaluation_text.getD []) ∧
    (∀ other : Option Str,
      (evaluation_text.getD []).take 2500 = (other.getD []).take 2500 →
      chat_with_groq_messages ticker price evaluation_text chat_history user_message =
        chat_with_groq_messages ticker price other chat_history user_message) := by
  refine ⟨?_, ?_, ?_, ?_, ?_, ?_⟩
  · have h1 : (takeLast 20 chat_history).length ≤ 20 := by
      simp only [takeLast, List.length_drop]
      omega
    by_cases hh : chat_history = []
    · simp [chat_with_groq_messages, chat_messages, hh]
    · simp only [chat_with_groq_messages, chat_messages, hh, if_false,
        List.length_append, List.length_cons, List.length_singleton,
        List.length_nil]
      omega
  · simp only [takeLast, List.length_drop]
    omega
  · exact ⟨chat_history.take (chat_history.length - 20),
      List.take_append_drop _ chat_history⟩
  · simp only [eval_context, List.length_take]
    omega
  · exact ⟨(evaluation_text.getD []).drop 2500, List.take_append_drop _ _⟩
  · intro other hother
    simp only [chat_with_groq_messages, chat_system_prompt, eval_context, hother]

/-- Witness for C9: evaluation texts of 2501 and 2502 identical
characters share their first 2500 characters, so the forwarded request
is identical. -/
theorem claim_C9_witness :
    chat_with_groq_messages ['A'] ['1'] (some (List.replicate 2501 'e')) []
      ['q'] =
    chat_with_groq_messages ['A'] ['1'] (some (List.replicate 2502 'e')) []
      ['q'] :=
  (claim_C9_context_bound ['A'] ['1'] (some (List.replicate 2501 'e')) []
    ['q']).2.2.2.2.2 (some (List.replicate 2502 'e'))
    (by rw [Option.getD_some, Option.getD_some, List.take_replicate,
          List.take_replicate]; norm_num)

/-- Claim C10: `analyze_with_groq` truncates the aggregated article text
to its first 3500 characters inside the prompt it sends: the request is
a single user message whose content splits around exactly that prefix
(itself of length at most 3500), and any two article texts sharing their
first 3500 characters produce the identical request. -/
theorem claim_C10_analyze_truncation (price ticker : Str) :
    (∀ news_text : Str, ∃ before after : Str,
      analyze_messages news_text price ticker =
        [Msg.mk roleUser (before ++ news_text.take 3500 ++ after)] ∧
      (news_text.take 3500).length ≤ 3500) ∧
    (∀ n1 n2 : Str, n1.take 3500 = n2.take 3500 →
      analyze_messages n1 price ticker = analyze_messages n2 price ticker) := by
  constructor
  · intro news_text
    refine ⟨anaSeg1 ++ ticker ++ anaSeg2 ++ price ++ anaSeg3, anaSeg4, ?_, ?_⟩
    · simp [analyze_messages, analyze_prompt, List.append_assoc]
    · simp only [List.length_take]
      omega
  · intro n1 n2 h
    simp only [analyze_messages, analyze_prompt, h]

/-- Witness for C10: article texts of 3501 and 3600 identical characters
share their first 3500 characters, so the analysis request is
identical. -/
theorem claim_C10_witness :
    analyze_messages (List.replicate 3501 'n') ['1'] ['A'] =
      analyze_messages (List.replicate 3600 'n') ['1'] ['A'] :=
  (claim_C10_analyze_truncation ['1'] ['A']).2 (List.replicate 3501 'n')
    (List.replicate 3600 'n')
    (by rw [List.take_replicate, List.take_replicate]; norm_num)

end NewsApp
